import Mathlib

/-!
# libbal: lifecycle, last-error storage, helpers, keyed list and test runner

A shallow embedding of the parts of the Berkeley-sockets abstraction library
that the lifecycle, error-handling and helper properties are about.

* `src/include/bal/helpers.h`: `__bal_safefree`, `_bal_validstr`,
  `_bal_validsock`, `bal_isbitset`, `bal_setbitshigh`, `bal_setbitslow`.
* `src/balinternal.h`: `_bal_safefree`, the `_bal_handleerr` expansion, and the
  declarations of `_bal_init`, `_bal_cleanup`, `__bal_setlasterror` and of the
  keyed-list functions `_bal_list_*`.
* `src/balerrors.h`: the declarations of `_bal_getlasterror`, `_bal_setlasterror`.
* `src/tests/tests.c`: the error dictionary, the init/cleanup test, the
  error-check expression and the loop of `main`.

Functions that are only declared in these files are modelled from the
specification; each such definition says so in its doc comment.
-/

namespace Bal

/-! ## Error taxonomy and thread-local last error -/

/-- The thirteen library error codes, in the order of `error_dict` in
`baltest_error_sanity` (tests.c). -/
inductive BalError where
  | NULLPTR
  | BADSTRING
  | BADSOCKET
  | BADBUFLEN
  | INVALIDARG
  | NOTINIT
  | DUPEINIT
  | ASNOTINIT
  | ASDUPEINIT
  | ASNOSOCKET
  | BADEVTMASK
  | INTERNAL
  | UNAVAIL
  deriving DecidableEq

/-- The entries of `error_dict` (tests.c), in table order. -/
def error_dict : List BalError :=
  [.NULLPTR, .BADSTRING, .BADSOCKET, .BADBUFLEN, .INVALIDARG, .NOTINIT, .DUPEINIT,
   .ASNOTINIT, .ASDUPEINIT, .ASNOSOCKET, .BADEVTMASK, .INTERNAL, .UNAVAIL]

/-- Modelled from the spec: the `int` error value, whose encoding macros are
declared outside the given sources. Library codes and operating-system codes
are kept apart by a reserved high bit, rendered here as the tagged variant
`Library(code) | Os(code)` of the design notes. -/
inductive ErrCode where
  | library (e : BalError)
  | os (n : Int)
  deriving DecidableEq

/-- Modelled from the spec: `_bal_mk_error`, the macro (declared outside the
given sources) that turns a library code into the stored error value. -/
def _bal_mk_error (e : BalError) : ErrCode := .library e

/-- Modelled from the spec: the constant `_BAL_E_BADSTRING` used by
`_bal_validstr`, defined outside the given sources: the stored form of the
library code BADSTRING. -/
def _BAL_E_BADSTRING : ErrCode := _bal_mk_error .BADSTRING

/-- Modelled from the spec: the constant `_BAL_E_BADSOCKET` used by
`_bal_validsock`, defined outside the given sources: the stored form of the
library code BADSOCKET. -/
def _BAL_E_BADSOCKET : ErrCode := _bal_mk_error .BADSOCKET

/-- Modelled from the spec: the per-thread record of the last error, whose
type is declared outside the given sources: the code and the place
(`__func__`, `__file__`, `__LINE__`) that recorded it. -/
structure bal_thread_error_info where
  code : ErrCode
  func : String
  file : String
  line : Nat
  deriving DecidableEq

/-- The thread-local record of a thread that has recorded no error yet. -/
def bal_thread_error_info.none : bal_thread_error_info :=
  { code := .os 0, func := "", file := "", line := 0 }

/-- The values of `__func__`, `__file__` and `__LINE__` where a macro is expanded. -/
structure SrcLoc where
  func : String
  file : String
  line : Nat
  deriving DecidableEq

/-- Modelled from the spec: `__bal_setlasterror`, declared in balinternal.h and
defined outside the given sources. It records the error and where it was
raised in the caller's thread-local storage, and its result is the failure
value `false`, so that an entry point can return it directly. -/
def __bal_setlasterror (err : ErrCode) (func file : String) (line : Nat)
    (_t : bal_thread_error_info) : Bool × bal_thread_error_info :=
  (false, { code := err, func := func, file := file, line := line })

/-- The macro `_bal_setlasterror(err)` of balinternal.h:
`__bal_setlasterror(err, __func__, __file__, __LINE__)`. -/
def _bal_setlasterror (loc : SrcLoc) (err : ErrCode) (t : bal_thread_error_info) :
    Bool × bal_thread_error_info :=
  __bal_setlasterror err loc.func loc.file loc.line t

/-- The macro `_bal_handleerr(err)`: in balinternal.h it is
`__bal_setlasterror(err, __func__, __file__, __LINE__)`, in balerrors.h it is
`_bal_setlasterror(err)`. -/
def _bal_handleerr (loc : SrcLoc) (err : ErrCode) (t : bal_thread_error_info) :
    Bool × bal_thread_error_info :=
  _bal_setlasterror loc err t

/-- Modelled from the spec: the structure `bal_error` filled in by the
get-last-error calls, declared outside the given sources; tests.c reads its
fields `code` and `desc`. -/
structure bal_error where
  code : ErrCode
  desc : String
  deriving DecidableEq

/-- Modelled from the spec: the table of descriptions, defined outside the
given sources. Each library code has the text written beside its entry in
`error_dict` (tests.c). -/
def BalError.description : BalError → String
  | .NULLPTR => "NULL pointer argument"
  | .BADSTRING => "Invalid string argument"
  | .BADSOCKET => "Invalid bal_socket argument"
  | .BADBUFLEN => "Invalid buffer length argument"
  | .INVALIDARG => "Invalid argument"
  | .NOTINIT => "libbal is not initialized"
  | .DUPEINIT => "libbal is already initialized"
  | .ASNOTINIT => "Asynchronous I/O is not initialized"
  | .ASDUPEINIT => "Asynchronous I/O is already initialized"
  | .ASNOSOCKET => "Socket is not registered for asynchronous I/O events"
  | .BADEVTMASK => "Invalid asynchronous I/O event bitmask"
  | .INTERNAL => "An internal error has occurred"
  | .UNAVAIL => "Feature is disabled or unavailable"

/-- Modelled from the spec: the short description of an error value. A library
code has its table entry; an operating-system code has the translation
`strerror` of the platform. -/
def ErrCode.description (strerror : Int → String) : ErrCode → String
  | .library e => e.description
  | .os n => strerror n

/-- Modelled from the spec: the public `bal_get_last_error`, defined outside
the given sources (its internal form `_bal_getlasterror` is declared in
balerrors.h). It reads the caller's thread-local last error, fills `err` with
the code and its short description, and returns the code. -/
def bal_get_last_error (strerror : Int → String) (t : bal_thread_error_info) :
    ErrCode × bal_error :=
  (t.code, { code := t.code, desc := t.code.description strerror })

/-- Modelled from the spec: the public `bal_get_last_error_ext`, defined
outside the given sources. As `bal_get_last_error`, with the extended
description: the short one followed by the function, file and line that
recorded the error. -/
def bal_get_last_error_ext (strerror : Int → String) (t : bal_thread_error_info) :
    ErrCode × bal_error :=
  (t.code,
   { code := t.code,
     desc := t.code.description strerror ++ " (" ++ t.func ++ " in " ++ t.file ++ ":"
       ++ toString t.line ++ ")" })

/-! ## Lifecycle -/

/-- Modelled from the spec: a socket record of the registration tables,
`descriptor, interest_mask, state_flags` (callback and user context are
opaque to the library and left out). -/
structure bal_selectdata where
  sd : Int
  mask : Nat
  flags : Nat
  deriving DecidableEq

/-- Modelled from the spec: a keyed list, the ordered sequence of
`(key, value)` nodes. -/
abbrev bal_list := List (Int × bal_selectdata)

/-- Modelled from the spec: the process-wide library state, the two atomic
booleans, the platform primitives, the two tables and the two library
threads. -/
structure LibState where
  /-- The atomic boolean `initialized`. -/
  initialized : Bool
  /-- The atomic boolean `shutdown`. -/
  shutdown : Bool
  /-- Whether the registration mutex exists. -/
  mutex : Bool
  /-- Whether the condition variable `sync_cond` exists. -/
  cond : Bool
  /-- The live table, when it exists. -/
  live : Option bal_list
  /-- The deferred-change queue, when it exists. -/
  deferred : Option bal_list
  /-- Whether the event thread is running. -/
  event_thread : Bool
  /-- Whether the sync thread is running. -/
  sync_thread : Bool
  deriving DecidableEq

/-- The library state of a process that has not called `init`. -/
def LibState.fresh : LibState :=
  { initialized := false, shutdown := false, mutex := false, cond := false,
    live := none, deferred := none, event_thread := false, sync_thread := false }

/-- The state that a successful `init` builds: mutex, condition variable, both
lists (empty), both threads running, `initialized` set. The flag `shutdown`
is clear, since a thread that reads it set leaves its loop. -/
def LibState.running : LibState :=
  { initialized := true, shutdown := false, mutex := true, cond := true,
    live := some [], deferred := some [], event_thread := true, sync_thread := true }

/-- The state that `cleanup` leaves: `shutdown` set, threads joined, lists
drained and destroyed, primitives destroyed, `initialized` cleared. -/
def LibState.stopped : LibState :=
  { initialized := false, shutdown := true, mutex := false, cond := false,
    live := none, deferred := none, event_thread := false, sync_thread := false }

/-- Invariant I5: `initialized` holds iff both threads run and both tables exist. -/
def LibState.I5 (s : LibState) : Prop :=
  s.initialized = true ↔
    (s.event_thread = true ∧ s.sync_thread = true ∧ s.live.isSome = true ∧
      s.deferred.isSome = true)

/-- Modelled from the spec: what the platform primitives do during one
lifecycle call.
`create_error` is the operating-system error of the first primitive (mutex,
list, condition variable, thread) that cannot be created, if any.
`join_timeout` says that a library thread is still inside a callback when the
bounded join of `cleanup` expires. -/
structure Primitives where
  create_error : Option Int
  join_timeout : Bool
  deriving DecidableEq

/-- The state a call works on: the process-wide library state and the calling
thread's last error. -/
structure BalState where
  lib : LibState
  err : bal_thread_error_info
  deriving DecidableEq

/-- Primitives that can all be created and whose joins complete in time. -/
def Primitives.ok : Primitives := { create_error := none, join_timeout := false }

/-- Primitives that can all be created, with a join that times out. -/
def Primitives.slow_join : Primitives := { create_error := none, join_timeout := true }

/-- The state of a process that has not called `init`, the calling thread
having recorded no error. -/
def BalState.fresh : BalState := { lib := LibState.fresh, err := bal_thread_error_info.none }

/-- A place in a caller's source, for concrete evaluations. -/
def SrcLoc.caller : SrcLoc := { func := "main", file := "main.c", line := 1 }

/-- Modelled from the spec: `_bal_init`, declared in balinternal.h and defined
outside the given sources. The one-shot guard is the test of `initialized`:
an initialized library fails with DUPEINIT and is left as it is. Otherwise the
mutex, both lists, the condition variable and both threads are created and
`initialized` is set; a primitive that cannot be created makes the call fail
with its operating-system error recorded and everything unwound, so the
library state is the one before the call. -/
def _bal_init (loc : SrcLoc) (p : Primitives) (s : BalState) : Bool × BalState :=
  if s.lib.initialized then
    let r := _bal_handleerr loc (_bal_mk_error .DUPEINIT) s.err
    (r.1, { s with err := r.2 })
  else
    match p.create_error with
    | some e =>
      let r := _bal_handleerr loc (.os e) s.err
      (r.1, { s with err := r.2 })
    | none => (true, { s with lib := LibState.running })

/-- Modelled from the spec: `_bal_cleanup`, declared in balinternal.h and
defined outside the given sources. A library that is not initialized fails
with NOTINIT and is left as it is. Otherwise `shutdown` is set, `sync_cond` is
broadcast, both threads are joined (a join that times out records INTERNAL and
the call proceeds), both lists are drained and destroyed, the primitives are
destroyed and `initialized` is cleared. -/
def _bal_cleanup (loc : SrcLoc) (p : Primitives) (s : BalState) : Bool × BalState :=
  if !s.lib.initialized then
    let r := _bal_handleerr loc (_bal_mk_error .NOTINIT) s.err
    (r.1, { s with err := r.2 })
  else
    let err :=
      if p.join_timeout then (_bal_handleerr loc (_bal_mk_error .INTERNAL) s.err).2
      else s.err
    (true, { lib := LibState.stopped, err := err })

/-- The calls `init(); cleanup()` repeated once for each entry of `ps`, the
entry giving what the primitives do during the `init` and during the
`cleanup` of that round: the conjunction of the results and the final state. -/
def init_cleanup_pairs (loc : SrcLoc) : List (Primitives × Primitives) → BalState →
    Bool × BalState
  | [], s => (true, s)
  | pq :: rest, s =>
    let a := _bal_init loc pq.1 s
    let b := _bal_cleanup loc pq.2 a.2
    let r := init_cleanup_pairs loc rest b.2
    (a.1 && b.1 && r.1, r.2)

/-- The test `baltest_init_cleanup_sanity` of tests.c, with `bal_init` and
`bal_cleanup` the public names of `_bal_init` and `_bal_cleanup`. -/
def baltest_init_cleanup_sanity (loc : SrcLoc) (p : Primitives) (s : BalState) :
    Bool × BalState :=
  let pass := true
  let r1 := _bal_init loc p s
  let pass := pass && r1.1
  let r2 := _bal_init loc p r1.2
  let pass := pass && !r2.1
  let r3 := _bal_cleanup loc p r2.2
  let pass := pass && r3.1
  let r4 := _bal_cleanup loc p r3.2
  let pass := pass && !r4.1
  let r5 := _bal_init loc p r4.2
  let pass := pass && r5.1
  let r6 := _bal_cleanup loc p r5.2
  let pass := pass && r6.1
  (pass, r6.2)

/-! ## Validation macros (helpers.h) -/

/-- Modelled from the spec: the structure `bal_socket`, declared outside the
given sources. Of its fields `_bal_validsock` reads the descriptor `sd`, an
integer handle whose invalid value is `-1`. -/
structure bal_socket where
  sd : Int
  deriving DecidableEq

/-- The first character of a string in memory. The list holds the characters
before the terminating NUL, so the first character of the empty string is the
terminator `0`. -/
def first_char : List Nat → Nat
  | [] => 0
  | c :: _ => c

/-- The read `*(str)` through a pointer to characters; reading through `NULL`
is undefined (`none`). -/
def read_char (str : Option (List Nat)) : Option Nat :=
  str.map first_char

/-- The read `(s)->sd` through a pointer to a socket; reading through `NULL`
is undefined (`none`). -/
def read_sd (s : Option bal_socket) : Option Int :=
  s.map (fun k => k.sd)

/-- The operator `a && b` of C: `b` is evaluated only when `a` is true. The
value `none` is an undefined evaluation. -/
def c_and (a : Option Bool) (b : Unit → Option Bool) : Option Bool :=
  match a with
  | none => none
  | some false => some false
  | some true => b ()

/-- The macro `_bal_validstr(str)`:
`((NULL != (str) && 0 != *(str)) ? true : _bal_handleerr(_BAL_E_BADSTRING))`.
The result is the value of the expression and the thread's last error after
it, or `none` when the evaluation is undefined. -/
def _bal_validstr (loc : SrcLoc) (str : Option (List Nat)) (t : bal_thread_error_info) :
    Option (Bool × bal_thread_error_info) :=
  match c_and (some (decide (none ≠ str)))
      (fun _ => (read_char str).map (fun c => decide (0 ≠ c))) with
  | none => none
  | some true => some (true, t)
  | some false => some (_bal_handleerr loc _BAL_E_BADSTRING t)

/-- The macro `_bal_validsock(s)`:
`((NULL != (s) && -1 != (s)->sd) ? true : _bal_handleerr(_BAL_E_BADSOCKET))`.
The result is the value of the expression and the thread's last error after
it, or `none` when the evaluation is undefined. -/
def _bal_validsock (loc : SrcLoc) (s : Option bal_socket) (t : bal_thread_error_info) :
    Option (Bool × bal_thread_error_info) :=
  match c_and (some (decide (none ≠ s)))
      (fun _ => (read_sd s).map (fun sd => decide (-1 ≠ sd))) with
  | none => none
  | some true => some (true, t)
  | some false => some (_bal_handleerr loc _BAL_E_BADSOCKET t)

/-! ## Bit helpers (helpers.h) -/

/-- Memory as words indexed by address. -/
abbrev Mem := Nat → Nat

/-- The null pointer. -/
def NULL : Nat := 0

/-- The operator `~x` of C on an unsigned operand of `w` bits. -/
def bit_not (w x : Nat) : Nat := (2 ^ w - 1) ^^^ (x % 2 ^ w)

/-- The macro `bal_isbitset(bitmask, bit)`: `(((bitmask) & (bit)) == (bit))`. -/
def bal_isbitset (bitmask bit : Nat) : Bool := (bitmask &&& bit) == bit

/-- The macro `bal_setbitshigh(pbitmask, bits)` on a bitmask of `w` bits:
`if (NULL != (pbitmask)) (*(pbitmask)) |= (bits);`. -/
def bal_setbitshigh (w : Nat) (mem : Mem) (pbitmask bits : Nat) : Mem :=
  if NULL ≠ pbitmask then
    Function.update mem pbitmask ((mem pbitmask ||| bits) % 2 ^ w)
  else mem

/-- The macro `bal_setbitslow(pbitmask, bits)` on a bitmask of `w` bits:
`if (NULL != (pbitmask)) (*(pbitmask)) &= ~(bits);`. -/
def bal_setbitslow (w : Nat) (mem : Mem) (pbitmask bits : Nat) : Mem :=
  if NULL ≠ pbitmask then
    Function.update mem pbitmask ((mem pbitmask &&& bit_not w bits) % 2 ^ w)
  else mem

/-! ## Safe free (balinternal.h and helpers.h) -/

/-- The heap as the safe-free functions see it: the pointer stored in each
pointer cell, which blocks are allocated, and the calls made to `free`. -/
structure Heap where
  /-- The pointer stored at each address. -/
  cells : Nat → Nat
  /-- Whether the block at an address is allocated. -/
  allocated : Nat → Bool
  /-- The arguments of the calls to `free`, oldest first. -/
  frees : List Nat

/-- The call `free(a)`: the block at `a` is released. -/
def free (h : Heap) (a : Nat) : Heap :=
  { h with allocated := Function.update h.allocated a false, frees := h.frees ++ [a] }

/-- The store `*pp = v`. -/
def store_ptr (h : Heap) (pp v : Nat) : Heap :=
  { h with cells := Function.update h.cells pp v }

/-- The function `_bal_safefree` of balinternal.h:
`if (pp && *pp) { free(*pp); *pp = NULL; }`. -/
def _bal_safefree (h : Heap) (pp : Nat) : Heap :=
  if pp ≠ NULL then
    if h.cells pp ≠ NULL then
      store_ptr (free h (h.cells pp)) pp NULL
    else h
  else h

/-- The function `__bal_safefree` of helpers.h:
`if (pp && *pp) { free(*pp); *pp = NULL; }`. -/
def __bal_safefree (h : Heap) (pp : Nat) : Heap :=
  if pp ≠ NULL then
    if h.cells pp ≠ NULL then
      store_ptr (free h (h.cells pp)) pp NULL
    else h
  else h

/-- The free-and-null primitive as the specification words it: nothing happens
when `pp` is null or `*pp` is null; otherwise the pointee is released and
`*pp` is set to `NULL`. -/
def free_and_null (h : Heap) (pp : Nat) : Heap :=
  if pp = NULL ∨ h.cells pp = NULL then h
  else
    { cells := Function.update h.cells pp NULL,
      allocated := Function.update h.allocated (h.cells pp) false,
      frees := h.frees ++ [h.cells pp] }

/-! ## Keyed list (balinternal.h) -/

/-- Modelled from the spec: `_bal_list_create_node`, declared in balinternal.h
and defined outside the given sources: "Creates a node and assigns key and
value to it". The node is allocated; `alloc` says whether the allocation
succeeds, and on failure there is no node. -/
def _bal_list_create_node (alloc : Bool) (key : Int) (val : bal_selectdata) :
    Option (Int × bal_selectdata) :=
  if alloc then some (key, val) else none

/-- Modelled from the spec: `_bal_list_add`, declared in balinternal.h and
defined outside the given sources: "Appends a node with the supplied key and
value to the end of the list", without looking for the key among the nodes
already there. An allocation failure is the result `false` and leaves the
list as it was. -/
def _bal_list_add (alloc : Bool) (lst : bal_list) (key : Int) (val : bal_selectdata) :
    Bool × bal_list :=
  match _bal_list_create_node alloc key val with
  | some node => (true, lst ++ [node])
  | none => (false, lst)

/-- Modelled from the spec: `_bal_list_find`, declared in balinternal.h and
defined outside the given sources: "Finds a node by key and sets `val` to its
value, if found", walking the nodes from the head. The result `some v` stands
for the result `true` with `*val = v`, the result `none` for `false`. -/
def _bal_list_find : bal_list → Int → Option bal_selectdata
  | [], _ => none
  | node :: rest, key => if node.1 = key then some node.2 else _bal_list_find rest key

/-- Modelled from the spec: `_bal_list_empty`, declared in balinternal.h and
defined outside the given sources: "True if the list contains zero nodes". -/
def _bal_list_empty (lst : bal_list) : Bool :=
  lst.length == 0

/-- Modelled from the spec: `_bal_list_remove_all`, declared in balinternal.h
and defined outside the given sources: "Removes and deallocates all nodes from
the list, leaving the list empty". The list after the call is the result. -/
def _bal_list_remove_all (_lst : bal_list) : bal_list :=
  []

/-! ## Test runner (tests.c) -/

/-- The operator `a == b` of C on integers: its value is the `int` 1 or 0. -/
def c_eq (a b : Int) : Int :=
  if a = b then 1 else 0

/-- The expression `(code == ret == err.code)` of `baltest_error_sanity`
(tests.c). The operator `==` associates to the left, so this is
`((code == ret) == err.code)`. -/
def error_check (code ret err_code : Int) : Int :=
  c_eq (c_eq code ret) err_code

/-- The conversion of an `int` to `bool` that `pass &= (...)` applies. -/
def c_truth (x : Int) : Bool :=
  x != 0

/-- The check as the specification words it, the conjunctive equality
`code == ret AND ret == err.code`. -/
def conjunctive_check (code ret err_code : Int) : Bool :=
  decide (code = ret) && decide (ret = err_code)

/-- The value `EXIT_SUCCESS` of stdlib.h. -/
def EXIT_SUCCESS : Int := 0

/-- The value `EXIT_FAILURE` of stdlib.h. -/
def EXIT_FAILURE : Int := 1

/-- An entry `bal_test_data` of the table `bal_tests`: a name and the test
function. A test function works on the state `σ` of the process and returns
whether it passed. -/
structure bal_test_data (σ : Type) where
  name : String
  func : σ → Bool × σ

/-- A call of one of the printing functions of the test harness, with its
arguments. -/
inductive TestOutput where
  | start_all_tests (total : Nat)
  | start_test (total run : Nat) (name : String)
  | end_test (total run : Nat) (name : String) (pass : Bool)
  | end_all_tests (total run passed : Nat)
  deriving DecidableEq

/-- The variables of `main` (tests.c) during its loop: the index `n`, the
counters `tests_run` and `tests_passed`, the state of the process and what
has been printed. The field `calls` is a ghost record of the calls
`bal_tests[n].func()` made so far: the index `n` and the result of each. -/
structure MainState (σ : Type) where
  n : Nat
  tests_run : Nat
  tests_passed : Nat
  world : σ
  out : List TestOutput
  calls : List (Nat × Bool)

/-- The loop `for (n = 0; n < tests_total; n++)` of `main` (tests.c), entered
with the variables `st`, the counters being `size_t` of `w` bits. The first
argument bounds the number of iterations made, so that with `k` it gives the
variables after the first `k` iterations (or at the exit of the loop, when it
exits before). -/
def main_loop {σ : Type} (w : Nat) (bal_tests : List (bal_test_data σ)) (tests_total : Nat) :
    Nat → MainState σ → MainState σ
  | 0, st => st
  | k + 1, st =>
    if st.n < tests_total then
      match bal_tests[st.n]? with
      | none => st
      | some t =>
        let out1 := st.out ++ [TestOutput.start_test tests_total st.tests_run t.name]
        let r := t.func st.world
        let out2 := out1 ++ [TestOutput.end_test tests_total st.tests_run t.name r.1]
        let tests_passed := if r.1 then (st.tests_passed + 1) % 2 ^ w else st.tests_passed
        let tests_run := (st.tests_run + 1) % 2 ^ w
        main_loop w bal_tests tests_total k
          { n := (st.n + 1) % 2 ^ w, tests_run := tests_run, tests_passed := tests_passed,
            world := r.2, out := out2, calls := st.calls ++ [(st.n, r.1)] }
    else st

/-- The variables of `main` when it enters its loop. -/
def main_start {σ : Type} (bal_tests : List (bal_test_data σ)) (world : σ) : MainState σ :=
  { n := 0, tests_run := 0, tests_passed := 0, world := world,
    out := [TestOutput.start_all_tests bal_tests.length], calls := [] }

/-- The function `main` of tests.c on the table `bal_tests`: the exit status
and the variables at the end. The loop makes at most `tests_total`
iterations. -/
def main {σ : Type} (w : Nat) (bal_tests : List (bal_test_data σ)) (world : σ) :
    Int × MainState σ :=
  let tests_total := bal_tests.length
  let st := main_loop w bal_tests tests_total tests_total (main_start bal_tests world)
  let st := { st with
    out := st.out ++ [TestOutput.end_all_tests tests_total st.tests_run st.tests_passed] }
  (if st.tests_passed = st.tests_run then EXIT_SUCCESS else EXIT_FAILURE, st)

/-- The results of the test functions of a table run once each in table order,
each on the state the one before it left. -/
def run_in_order {σ : Type} : List (bal_test_data σ) → σ → List Bool
  | [], _ => []
  | t :: rest, world => (t.func world).1 :: run_in_order rest (t.func world).2

/-- A table of two tests on a counter, for concrete evaluations: the first
passes, the second passes only on a counter that is still 0. Both count their
call. -/
def sample_tests : List (bal_test_data Nat) :=
  [{ name := "first", func := fun c => (true, c + 1) },
   { name := "second", func := fun c => (decide (c = 0), c + 1) }]

/-! ## Lifecycle: init and cleanup -/

theorem init_success_iff (loc : SrcLoc) (p : Primitives) (s : BalState) :
    (_bal_init loc p s).1 = true ↔ s.lib.initialized = false ∧ p.create_error = none := by
  unfold _bal_init
  cases hi : s.lib.initialized <;> cases hc : p.create_error <;>
    simp [_bal_handleerr, _bal_setlasterror, __bal_setlasterror]

theorem init_success_state (loc : SrcLoc) (p : Primitives) (s : BalState)
    (h : (_bal_init loc p s).1 = true) :
    (_bal_init loc p s).2 = { s with lib := LibState.running } := by
  have h2 := (init_success_iff loc p s).1 h
  unfold _bal_init
  simp [h2.1, h2.2]

theorem cleanup_success_iff (loc : SrcLoc) (p : Primitives) (s : BalState) :
    (_bal_cleanup loc p s).1 = true ↔ s.lib.initialized = true := by
  unfold _bal_cleanup
  cases hi : s.lib.initialized <;>
    simp [_bal_handleerr, _bal_setlasterror, __bal_setlasterror]

theorem cleanup_success_lib (loc : SrcLoc) (p : Primitives) (s : BalState)
    (h : s.lib.initialized = true) :
    (_bal_cleanup loc p s).2.lib = LibState.stopped := by
  unfold _bal_cleanup
  simp [h]

/-- Invariant I5 holds of the fresh state and is kept by `init` and `cleanup`,
whatever their result. -/
theorem lifecycle_keeps_I5 (loc : SrcLoc) (p : Primitives) (s : BalState) (h : s.lib.I5) :
    LibState.fresh.I5 ∧ (_bal_init loc p s).2.lib.I5 ∧ (_bal_cleanup loc p s).2.lib.I5 := by
  refine ⟨by simp [LibState.I5, LibState.fresh], ?_, ?_⟩
  · unfold _bal_init
    cases hi : s.lib.initialized <;> cases hc : p.create_error <;>
      simp [LibState.I5, LibState.running] <;> simpa [LibState.I5] using h
  · unfold _bal_cleanup
    cases hi : s.lib.initialized
    · simpa [LibState.I5] using h
    · simp [LibState.I5, LibState.stopped]

/-- C1: on an initialized library a further `init` fails with DUPEINIT and
leaves the library state as it was (in particular the state after the first
successful `init`): the library stays initialized and a following `cleanup`
succeeds. -/
theorem init_twice_fails_DUPEINIT (loc : SrcLoc) (p q : Primitives) (s : BalState)
    (h : s.lib.initialized = true) :
    (_bal_init loc p s).1 = false ∧
    (_bal_init loc p s).2.err.code = _bal_mk_error .DUPEINIT ∧
    (_bal_init loc p s).2.lib = s.lib ∧
    (_bal_init loc p s).2.lib.initialized = true ∧
    (_bal_cleanup loc q (_bal_init loc p s).2).1 = true := by
  have hs : (_bal_init loc p s).2.lib = s.lib := by
    unfold _bal_init
    simp [h]
  refine ⟨?_, ?_, hs, by rw [hs]; exact h, ?_⟩
  · cases hr : (_bal_init loc p s).1
    · rfl
    · have := (init_success_iff loc p s).1 hr
      simp [h] at this
  · unfold _bal_init
    simp [h, _bal_handleerr, _bal_setlasterror, __bal_setlasterror]
  · rw [cleanup_success_iff, hs]
    exact h

/-- The instance of C1 at the state a first successful `init` leaves from the
fresh state: the second `init` fails with DUPEINIT and changes nothing. -/
theorem init_twice_fails_DUPEINIT_witness :
    (_bal_init SrcLoc.caller Primitives.ok BalState.fresh).1 = true ∧
    (_bal_init SrcLoc.caller Primitives.ok
      (_bal_init SrcLoc.caller Primitives.ok BalState.fresh).2).1 = false ∧
    (_bal_init SrcLoc.caller Primitives.ok
      (_bal_init SrcLoc.caller Primitives.ok BalState.fresh).2).2.err.code
        = _bal_mk_error .DUPEINIT ∧
    (_bal_init SrcLoc.caller Primitives.ok
      (_bal_init SrcLoc.caller Primitives.ok BalState.fresh).2).2.lib
        = (_bal_init SrcLoc.caller Primitives.ok BalState.fresh).2.lib ∧
    (_bal_init SrcLoc.caller Primitives.ok
      (_bal_init SrcLoc.caller Primitives.ok BalState.fresh).2).2.lib.initialized = true ∧
    (_bal_cleanup SrcLoc.caller Primitives.slow_join
      (_bal_init SrcLoc.caller Primitives.ok
        (_bal_init SrcLoc.caller Primitives.ok BalState.fresh).2).2).1 = true :=
  ⟨by decide,
    init_twice_fails_DUPEINIT SrcLoc.caller Primitives.ok Primitives.slow_join
      (_bal_init SrcLoc.caller Primitives.ok BalState.fresh).2 (by decide)⟩

/-- C2: on a library that is not initialized `cleanup` fails with NOTINIT and
the library state is left as it was, so it stays not initialized; and after
any successful `cleanup` the library is not initialized, so the second of two
consecutive `cleanup` calls fails with NOTINIT. -/
theorem cleanup_not_initialized_fails_NOTINIT (loc : SrcLoc) (p q : Primitives)
    (s : BalState) (h : s.lib.initialized = false) :
    (_bal_cleanup loc p s).1 = false ∧
    (_bal_cleanup loc p s).2.err.code = _bal_mk_error .NOTINIT ∧
    (_bal_cleanup loc p s).2.lib = s.lib ∧
    (_bal_cleanup loc p s).2.lib.initialized = false ∧
    (∀ s0 : BalState, (_bal_cleanup loc q s0).1 = true →
      (_bal_cleanup loc q s0).2.lib.initialized = false ∧
      (_bal_cleanup loc p (_bal_cleanup loc q s0).2).1 = false ∧
      (_bal_cleanup loc p (_bal_cleanup loc q s0).2).2.err.code = _bal_mk_error .NOTINIT ∧
      (_bal_cleanup loc p (_bal_cleanup loc q s0).2).2.lib.initialized = false) := by
  have key : ∀ t : BalState, t.lib.initialized = false →
      (_bal_cleanup loc p t).1 = false ∧
      (_bal_cleanup loc p t).2.err.code = _bal_mk_error .NOTINIT ∧
      (_bal_cleanup loc p t).2.lib = t.lib := by
    intro t ht
    unfold _bal_cleanup
    simp [ht, _bal_handleerr, _bal_setlasterror, __bal_setlasterror]
  obtain ⟨h1, h2, h3⟩ := key s h
  refine ⟨h1, h2, h3, by rw [h3]; exact h, ?_⟩
  intro s0 hs0
  have hi := (cleanup_success_iff loc q s0).1 hs0
  have hn : (_bal_cleanup loc q s0).2.lib.initialized = false := by
    rw [cleanup_success_lib loc q s0 hi]
    rfl
  obtain ⟨k1, k2, k3⟩ := key _ hn
  exact ⟨hn, k1, k2, by rw [k3]; exact hn⟩

/-- The instance of C2 at the fresh state, which was never initialized. -/
theorem cleanup_not_initialized_fails_NOTINIT_witness :
    BalState.fresh.lib.initialized = false ∧
    (_bal_cleanup SrcLoc.caller Primitives.ok BalState.fresh).1 = false ∧
    (_bal_cleanup SrcLoc.caller Primitives.ok BalState.fresh).2.err.code
      = _bal_mk_error .NOTINIT ∧
    (_bal_cleanup SrcLoc.caller Primitives.ok BalState.fresh).2.lib = BalState.fresh.lib :=
  have h := cleanup_not_initialized_fails_NOTINIT SrcLoc.caller Primitives.ok
    Primitives.ok BalState.fresh (by decide)
  ⟨by decide, h.1, h.2.1, h.2.2.1⟩

/-- C3: when the primitives can be created, from a library that is not
initialized the calls `init; cleanup; init; cleanup` succeed all four, the
library being initialized after each `init` and not initialized after each
`cleanup`; and any number of `init; cleanup` rounds succeed on every call. -/
theorem init_cleanup_roundtrip (loc : SrcLoc) (p1 q1 p2 q2 : Primitives) (s : BalState)
    (ps : List (Primitives × Primitives))
    (hs : s.lib.initialized = false)
    (h1 : p1.create_error = none) (h2 : p2.create_error = none)
    (hps : ∀ pq ∈ ps, pq.1.create_error = none) :
    (_bal_init loc p1 s).1 = true ∧
    (_bal_init loc p1 s).2.lib.initialized = true ∧
    (_bal_cleanup loc q1 (_bal_init loc p1 s).2).1 = true ∧
    (_bal_cleanup loc q1 (_bal_init loc p1 s).2).2.lib.initialized = false ∧
    (_bal_init loc p2 (_bal_cleanup loc q1 (_bal_init loc p1 s).2).2).1 = true ∧
    (_bal_cleanup loc q2
      (_bal_init loc p2 (_bal_cleanup loc q1 (_bal_init loc p1 s).2).2).2).1 = true ∧
    (init_cleanup_pairs loc ps s).1 = true ∧
    (init_cleanup_pairs loc ps s).2.lib.initialized = false := by
  have step : ∀ (p q : Primitives) (t : BalState), t.lib.initialized = false →
      p.create_error = none →
      (_bal_init loc p t).1 = true ∧ (_bal_init loc p t).2.lib.initialized = true ∧
      (_bal_cleanup loc q (_bal_init loc p t).2).1 = true ∧
      (_bal_cleanup loc q (_bal_init loc p t).2).2.lib.initialized = false := by
    intro p q t ht hp
    have a := (init_success_iff loc p t).2 ⟨ht, hp⟩
    have b : (_bal_init loc p t).2.lib.initialized = true := by
      rw [init_success_state loc p t a]
      rfl
    have c := (cleanup_success_iff loc q (_bal_init loc p t).2).2 b
    have d : (_bal_cleanup loc q (_bal_init loc p t).2).2.lib.initialized = false := by
      rw [cleanup_success_lib loc q _ b]
      rfl
    exact ⟨a, b, c, d⟩
  have rounds : ∀ (l : List (Primitives × Primitives)) (t : BalState),
      t.lib.initialized = false → (∀ pq ∈ l, pq.1.create_error = none) →
      (init_cleanup_pairs loc l t).1 = true ∧
      (init_cleanup_pairs loc l t).2.lib.initialized = false := by
    intro l
    induction l with
    | nil => exact fun t ht _ => ⟨rfl, ht⟩
    | cons pq rest ih =>
      intro t ht hl
      have st := step pq.1 pq.2 t ht (hl pq (List.mem_cons_self _ _))
      have r := ih _ st.2.2.2 (fun x hx => hl x (List.mem_cons_of_mem _ hx))
      simp only [init_cleanup_pairs]
      exact ⟨by rw [st.1, st.2.2.1, r.1]; rfl, r.2⟩
  have a := step p1 q1 s hs h1
  have b := step p2 q2 _ a.2.2.2 h2
  have r := rounds ps s hs hps
  exact ⟨a.1, a.2.1, a.2.2.1, a.2.2.2, b.1, b.2.2.1, r.1, r.2⟩

/-- The instance of C3 at the fresh state, with three further rounds; one of
the joins times out. -/
theorem init_cleanup_roundtrip_witness :
    (_bal_init SrcLoc.caller Primitives.ok BalState.fresh).1 = true ∧
    (_bal_cleanup SrcLoc.caller Primitives.ok
      (_bal_init SrcLoc.caller Primitives.ok BalState.fresh).2).1 = true ∧
    (init_cleanup_pairs SrcLoc.caller
      [(Primitives.ok, Primitives.ok), (Primitives.ok, Primitives.slow_join),
       (Primitives.ok, Primitives.ok)] BalState.fresh).1 = true :=
  have h := init_cleanup_roundtrip SrcLoc.caller Primitives.ok Primitives.ok
    Primitives.ok Primitives.ok BalState.fresh
    [(Primitives.ok, Primitives.ok), (Primitives.ok, Primitives.slow_join),
     (Primitives.ok, Primitives.ok)]
    (by decide) (by decide) (by decide) (by decide)
  ⟨h.1, h.2.2.1, h.2.2.2.2.2.2.1⟩

/-- The test `baltest_init_cleanup_sanity` passes from a library that is not
initialized when the primitives can be created. -/
theorem baltest_init_cleanup_sanity_passes (loc : SrcLoc) (p : Primitives) (s : BalState)
    (hs : s.lib.initialized = false) (hp : p.create_error = none) :
    (baltest_init_cleanup_sanity loc p s).1 = true := by
  cases s with
  | mk lib err =>
    cases p with
    | mk ce jt =>
      simp only at hs hp
      subst hp
      cases jt <;>
        simp [baltest_init_cleanup_sanity, _bal_init, _bal_cleanup, hs, _bal_handleerr,
          _bal_setlasterror, __bal_setlasterror, LibState.running, LibState.stopped]

/-! ## Last error -/

theorem description_ne_empty (e : BalError) : e.description ≠ "" := by
  cases e <;> decide

theorem append_ne_empty_left (a b : String) (h : a ≠ "") : a ++ b ≠ "" := by
  intro hab
  apply h
  have hl : (a ++ b).length = 0 := by rw [hab]; rfl
  rw [String.length_append] at hl
  have ha : a.length = 0 := by omega
  exact String.ext (List.length_eq_zero.mp ha)

/-- C4: for each of the thirteen library error codes `e`, once `e` is recorded
as the last error, get-last-error returns `e` and fills `err.code` with `e` and
`err.desc` with a non-empty description, and get-last-error-ext returns the
same code, fills `err.code` with it and `err.desc` with a non-empty extended
description. -/
theorem last_error_roundtrip (e : BalError) (strerror : Int → String) (loc : SrcLoc)
    (t : bal_thread_error_info) :
    e ∈ error_dict ∧
    (_bal_handleerr loc (_bal_mk_error e) t).1 = false ∧
    (bal_get_last_error strerror (_bal_handleerr loc (_bal_mk_error e) t).2).1
      = ErrCode.library e ∧
    (bal_get_last_error strerror (_bal_handleerr loc (_bal_mk_error e) t).2).2.code
      = ErrCode.library e ∧
    (bal_get_last_error strerror (_bal_handleerr loc (_bal_mk_error e) t).2).2.desc ≠ "" ∧
    (bal_get_last_error_ext strerror (_bal_handleerr loc (_bal_mk_error e) t).2).1
      = ErrCode.library e ∧
    (bal_get_last_error_ext strerror (_bal_handleerr loc (_bal_mk_error e) t).2).2.code
      = ErrCode.library e ∧
    (bal_get_last_error_ext strerror (_bal_handleerr loc (_bal_mk_error e) t).2).2.desc
      ≠ "" := by
  refine ⟨by cases e <;> decide, rfl, rfl, rfl, ?_, rfl, rfl, ?_⟩
  · exact description_ne_empty e
  · simp only [bal_get_last_error_ext, _bal_handleerr, _bal_setlasterror, __bal_setlasterror,
      _bal_mk_error, ErrCode.description]
    repeat apply append_ne_empty_left
    exact description_ne_empty e

/-! ## Validation macros -/

/-- C5: `_bal_validsock(s)` always has a defined value. The value is true
exactly when `s` is non-null and `s->sd` is not `-1`, and then the last error
is unchanged; when `s` is null or `s->sd` is `-1` the value is false and the
last error is BADSOCKET. On a null `s` the read of `s->sd`, which is
undefined there, is not evaluated. -/
theorem validsock_spec (loc : SrcLoc) (s : Option bal_socket) (t : bal_thread_error_info) :
    (∃ r t', _bal_validsock loc s t = some (r, t') ∧
      (r = true ↔ ∃ k, s = some k ∧ k.sd ≠ -1) ∧
      (r = true → t' = t) ∧
      (r = false → t'.code = ErrCode.library .BADSOCKET ∧
        t' = (_bal_handleerr loc _BAL_E_BADSOCKET t).2)) ∧
    read_sd none = none ∧
    _bal_validsock loc none t = some (_bal_handleerr loc _BAL_E_BADSOCKET t) ∧
    (_bal_handleerr loc _BAL_E_BADSOCKET t).1 = false := by
  refine ⟨?_, rfl, rfl, rfl⟩
  cases s with
  | none =>
    exact ⟨false, (_bal_handleerr loc _BAL_E_BADSOCKET t).2, rfl, by simp, by simp,
      fun _ => ⟨rfl, rfl⟩⟩
  | some k =>
    by_cases hk : k.sd = -1
    · refine ⟨false, (_bal_handleerr loc _BAL_E_BADSOCKET t).2, ?_, by simp [hk], by simp,
        fun _ => ⟨rfl, rfl⟩⟩
      simp [_bal_validsock, c_and, read_sd, hk, _bal_handleerr, _bal_setlasterror,
        __bal_setlasterror]
    · have hk2 : ¬ (-1 = k.sd) := fun h => hk h.symm
      refine ⟨true, t, ?_, by simp [hk], fun _ => rfl, by simp⟩
      simp [_bal_validsock, c_and, read_sd, hk2]

/-- C6: `_bal_validstr(str)` always has a defined value. The value is true
exactly when `str` is non-null and its first character is not NUL, and then
the last error is unchanged; when `str` is null or empty the value is false
and the last error is BADSTRING. On a null `str` the read of `*str`, which is
undefined there, is not evaluated. -/
theorem validstr_spec (loc : SrcLoc) (str : Option (List Nat)) (t : bal_thread_error_info) :
    (∃ r t', _bal_validstr loc str t = some (r, t') ∧
      (r = true ↔ ∃ cs, str = some cs ∧ first_char cs ≠ 0) ∧
      (r = true → t' = t) ∧
      (r = false → t'.code = ErrCode.library .BADSTRING ∧
        t' = (_bal_handleerr loc _BAL_E_BADSTRING t).2)) ∧
    read_char none = none ∧
    _bal_validstr loc none t = some (_bal_handleerr loc _BAL_E_BADSTRING t) ∧
    _bal_validstr loc (some []) t = some (_bal_handleerr loc _BAL_E_BADSTRING t) ∧
    (_bal_handleerr loc _BAL_E_BADSTRING t).1 = false := by
  refine ⟨?_, rfl, rfl, rfl, rfl⟩
  cases str with
  | none =>
    exact ⟨false, (_bal_handleerr loc _BAL_E_BADSTRING t).2, rfl, by simp, by simp,
      fun _ => ⟨rfl, rfl⟩⟩
  | some cs =>
    by_cases hc : first_char cs = 0
    · refine ⟨false, (_bal_handleerr loc _BAL_E_BADSTRING t).2, ?_, by simp [hc], by simp,
        fun _ => ⟨rfl, rfl⟩⟩
      simp [_bal_validstr, c_and, read_char, hc, _bal_handleerr, _bal_setlasterror,
        __bal_setlasterror]
    · have hc2 : ¬ (0 = first_char cs) := fun h => hc h.symm
      refine ⟨true, t, ?_, by simp [hc], fun _ => rfl, by simp⟩
      simp [_bal_validstr, c_and, read_char, hc2]

/-! ## Bit helpers -/

theorem and_eq_right_iff (m b : Nat) :
    m &&& b = b ↔ ∀ i, b.testBit i = true → m.testBit i = true := by
  constructor
  · intro h i hi
    have := Nat.testBit_and m b i
    rw [h, hi] at this
    simpa using this.symm
  · intro h
    apply Nat.eq_of_testBit_eq
    intro i
    rw [Nat.testBit_and]
    cases hb : b.testBit i
    · simp
    · simp [h i hb]

theorem and_eq_zero_iff_disjoint (m b : Nat) :
    m &&& b = 0 ↔ ∀ i, b.testBit i = true → m.testBit i = false := by
  constructor
  · intro h i hi
    have := Nat.testBit_and m b i
    rw [h, hi] at this
    simpa using this.symm
  · intro h
    apply Nat.eq_of_testBit_eq
    intro i
    rw [Nat.testBit_and, Nat.zero_testBit]
    cases hb : b.testBit i
    · simp
    · simp [h i hb]

theorem testBit_bit_not (w b i : Nat) :
    (bit_not w b).testBit i = (decide (i < w) && !b.testBit i) := by
  unfold bit_not
  rw [Nat.testBit_xor, Nat.testBit_two_pow_sub_one, Nat.testBit_mod_two_pow]
  cases decide (i < w) <;> cases b.testBit i <;> rfl

theorem and_bit_not_lt (w m b : Nat) (hm : m < 2 ^ w) : m &&& bit_not w b < 2 ^ w :=
  lt_of_le_of_lt Nat.and_le_left hm

theorem testBit_and_bit_not (w m b i : Nat) (hm : m < 2 ^ w) :
    (m &&& bit_not w b).testBit i = (m.testBit i && !b.testBit i) := by
  rw [Nat.testBit_and, testBit_bit_not]
  by_cases hi : i < w
  · simp [hi]
  · have : m.testBit i = false :=
      Nat.testBit_lt_two_pow (lt_of_lt_of_le hm (Nat.pow_le_pow_right (by decide) (by omega)))
    simp [this]

/-- C7: `bal_isbitset(m, b)` is true if and only if every bit that is 1 in `b`
is also 1 in `m`. So it is true for every `m` when `b` is 0, and for a
single-bit `b` it is the test `(m & b) != 0`; for a `b` of several bits it is
not that test (`m = 1`, `b = 3` shares a bit and is not set). -/
theorem isbitset_spec (m b : Nat) :
    (bal_isbitset m b = true ↔ ∀ i, b.testBit i = true → m.testBit i = true) ∧
    bal_isbitset m 0 = true ∧
    (∀ k, bal_isbitset m (2 ^ k) = (m &&& 2 ^ k != 0)) ∧
    (bal_isbitset 1 3 = false ∧ (1 &&& 3 != 0) = true) := by
  have main : ∀ x y : Nat,
      (bal_isbitset x y = true ↔ ∀ i, y.testBit i = true → x.testBit i = true) := by
    intro x y
    unfold bal_isbitset
    rw [beq_iff_eq]
    exact and_eq_right_iff x y
  refine ⟨main m b, ?_, ?_, by decide⟩
  · rw [main]
    intro i hi
    simp at hi
  · intro k
    cases hk : m.testBit k
    · have hz : m &&& 2 ^ k = 0 := by
        rw [and_eq_zero_iff_disjoint]
        intro i hi
        rw [Nat.testBit_two_pow] at hi
        have : k = i := by simpa using hi
        rw [← this]
        exact hk
      have hp : (0 : Nat) ≠ 2 ^ k := (Nat.pos_pow_of_pos k (by decide)).ne
      simp [bal_isbitset, hz, hp]
    · have hz : m &&& 2 ^ k = 2 ^ k := by
        rw [and_eq_right_iff]
        intro i hi
        rw [Nat.testBit_two_pow] at hi
        have : k = i := by simpa using hi
        rw [← this]
        exact hk
      simp [bal_isbitset, hz]

theorem setbitshigh_at (w : Nat) (mem : Mem) (p b : Nat) (hp : p ≠ NULL)
    (hm : mem p < 2 ^ w) (hb : b < 2 ^ w) :
    bal_setbitshigh w mem p b = Function.update mem p (mem p ||| b) := by
  unfold bal_setbitshigh
  rw [if_pos (Ne.symm hp), Nat.mod_eq_of_lt (Nat.or_lt_two_pow hm hb)]

theorem setbitslow_at (w : Nat) (mem : Mem) (p b : Nat) (hp : p ≠ NULL)
    (hm : mem p < 2 ^ w) :
    bal_setbitslow w mem p b = Function.update mem p (mem p &&& bit_not w b) := by
  unfold bal_setbitslow
  rw [if_pos (Ne.symm hp), Nat.mod_eq_of_lt (and_bit_not_lt w (mem p) b hm)]

theorem or_and_bit_not (w m b : Nat) (hm : m < 2 ^ w) (hb : b < 2 ^ w) :
    (m ||| b) &&& bit_not w b = m &&& bit_not w b := by
  apply Nat.eq_of_testBit_eq
  intro i
  rw [testBit_and_bit_not w _ b i (Nat.or_lt_two_pow hm hb), testBit_and_bit_not w m b i hm,
    Nat.testBit_or]
  cases m.testBit i <;> cases b.testBit i <;> rfl

theorem and_bit_not_eq_self_iff (w m b : Nat) (hm : m < 2 ^ w) :
    m &&& bit_not w b = m ↔ m &&& b = 0 := by
  rw [and_eq_zero_iff_disjoint]
  constructor
  · intro h i hi
    have := testBit_and_bit_not w m b i hm
    rw [h, hi] at this
    simpa using this
  · intro h
    apply Nat.eq_of_testBit_eq
    intro i
    rw [testBit_and_bit_not w m b i hm]
    cases hb : b.testBit i
    · simp
    · simp [h i hb]

/-- C8: for a non-null `p` to a bitmask of `w` bits with old value `m` and bits
`b` of the same width, `bal_setbitshigh(p, b)` leaves `*p` equal to `m | b`:
afterwards `bal_isbitset(*p, b)` is true, every bit outside `b` has its old
value, no other word of memory has changed, and a second application changes
nothing. When `p` is null nothing is written. -/
theorem setbitshigh_spec (w : Nat) (mem : Mem) (p b : Nat) (hp : p ≠ NULL)
    (hm : mem p < 2 ^ w) (hb : b < 2 ^ w) :
    bal_setbitshigh w mem p b p = mem p ||| b ∧
    bal_isbitset (bal_setbitshigh w mem p b p) b = true ∧
    (∀ i, b.testBit i = false →
      (bal_setbitshigh w mem p b p).testBit i = (mem p).testBit i) ∧
    (∀ q, q ≠ p → bal_setbitshigh w mem p b q = mem q) ∧
    bal_setbitshigh w (bal_setbitshigh w mem p b) p b = bal_setbitshigh w mem p b ∧
    bal_setbitshigh w mem NULL b = mem := by
  have hv : bal_setbitshigh w mem p b p = mem p ||| b := by
    rw [setbitshigh_at w mem p b hp hm hb, Function.update_same]
  refine ⟨hv, ?_, ?_, ?_, ?_, ?_⟩
  · rw [hv]
    unfold bal_isbitset
    rw [beq_iff_eq, and_eq_right_iff]
    intro i hi
    rw [Nat.testBit_or, hi, Bool.or_true]
  · intro i hi
    rw [hv, Nat.testBit_or, hi, Bool.or_false]
  · intro q hq
    rw [setbitshigh_at w mem p b hp hm hb, Function.update_noteq hq]
  · have hv2 : bal_setbitshigh w mem p b p < 2 ^ w := by
      rw [hv]
      exact Nat.or_lt_two_pow hm hb
    have hidem : mem p ||| b ||| b = mem p ||| b := by
      apply Nat.eq_of_testBit_eq
      intro i
      simp only [Nat.testBit_or]
      cases (mem p).testBit i <;> cases b.testBit i <;> rfl
    rw [setbitshigh_at w _ p b hp hv2 hb, hv, setbitshigh_at w mem p b hp hm hb,
      Function.update_idem, hidem]
  · unfold bal_setbitshigh
    simp

/-- The instance of C8 on a 32-bit mask `0x05` at address 8, setting bits `0x06`. -/
theorem setbitshigh_spec_witness :
    (8 : Nat) ≠ NULL ∧ (5 : Nat) < 2 ^ 32 ∧ (6 : Nat) < 2 ^ 32 ∧
    bal_setbitshigh 32 (fun _ => 5) 8 6 8 = 7 ∧
    bal_isbitset (bal_setbitshigh 32 (fun _ => 5) 8 6 8) 6 = true :=
  have h := setbitshigh_spec 32 (fun _ => 5) 8 6 (by decide) (by decide) (by decide)
  ⟨by decide, by decide, by decide, h.1, h.2.1⟩

/-- C9: for a non-null `p` to a bitmask of `w` bits with old value `m` and bits
`b`, `bal_setbitslow(p, b)` leaves `*p` equal to `m & ~b`: afterwards
`(*p & b) == 0`, every bit outside `b` has its old value, and no other word of
memory has changed. Applied after `bal_setbitshigh(p, b)` it leaves
`m & ~b`, which is `m` (memory as it was) exactly when `m` had none of the
bits of `b` set. When `p` is null nothing is written. -/
theorem setbitslow_spec (w : Nat) (mem : Mem) (p b : Nat) (hp : p ≠ NULL)
    (hm : mem p < 2 ^ w) (hb : b < 2 ^ w) :
    bal_setbitslow w mem p b p = mem p &&& bit_not w b ∧
    bal_setbitslow w mem p b p &&& b = 0 ∧
    (∀ i, b.testBit i = false →
      (bal_setbitslow w mem p b p).testBit i = (mem p).testBit i) ∧
    (∀ i, b.testBit i = true → (bal_setbitslow w mem p b p).testBit i = false) ∧
    (∀ q, q ≠ p → bal_setbitslow w mem p b q = mem q) ∧
    bal_setbitslow w (bal_setbitshigh w mem p b) p b p = mem p &&& bit_not w b ∧
    (bal_setbitslow w (bal_setbitshigh w mem p b) p b p = mem p ↔ mem p &&& b = 0) ∧
    (bal_setbitslow w (bal_setbitshigh w mem p b) p b = mem ↔ mem p &&& b = 0) ∧
    bal_setbitslow w mem NULL b = mem := by
  have hv : bal_setbitslow w mem p b p = mem p &&& bit_not w b := by
    rw [setbitslow_at w mem p b hp hm, Function.update_same]
  have hbits : ∀ i, (bal_setbitslow w mem p b p).testBit i
      = ((mem p).testBit i && !b.testBit i) := by
    intro i
    rw [hv, testBit_and_bit_not w (mem p) b i hm]
  have hhl : bal_setbitslow w (bal_setbitshigh w mem p b) p b
      = Function.update mem p (mem p &&& bit_not w b) := by
    have hv2 : bal_setbitshigh w mem p b p < 2 ^ w := by
      rw [setbitshigh_at w mem p b hp hm hb, Function.update_same]
      exact Nat.or_lt_two_pow hm hb
    rw [setbitslow_at w _ p b hp hv2, setbitshigh_at w mem p b hp hm hb,
      Function.update_same, Function.update_idem, or_and_bit_not w (mem p) b hm hb]
  refine ⟨hv, ?_, ?_, ?_, ?_, ?_, ?_, ?_, ?_⟩
  · rw [and_eq_zero_iff_disjoint]
    intro i hi
    rw [hbits, hi]
    simp
  · intro i hi
    rw [hbits, hi]
    simp
  · intro i hi
    rw [hbits, hi]
    simp
  · intro q hq
    rw [setbitslow_at w mem p b hp hm, Function.update_noteq hq]
  · rw [hhl, Function.update_same]
  · rw [hhl, Function.update_same]
    exact and_bit_not_eq_self_iff w (mem p) b hm
  · rw [hhl, Function.update_eq_self_iff]
    exact and_bit_not_eq_self_iff w (mem p) b hm
  · unfold bal_setbitslow
    simp

/-- The instance of C9 on a 32-bit mask `0x05` at address 8, clearing bits
`0x06`: the result is `0x01`, and setting then clearing `0x06` does not give
back `0x05`, which had bit `0x04` set. -/
theorem setbitslow_spec_witness :
    (8 : Nat) ≠ NULL ∧ (5 : Nat) < 2 ^ 32 ∧ (6 : Nat) < 2 ^ 32 ∧
    bal_setbitslow 32 (fun _ => 5) 8 6 8 = 5 &&& bit_not 32 6 ∧
    bal_setbitslow 32 (fun _ => 5) 8 6 8 &&& 6 = 0 ∧
    (bal_setbitslow 32 (bal_setbitshigh 32 (fun _ => 5) 8 6) 8 6 8 = 5 ↔ 5 &&& 6 = 0) :=
  have h := setbitslow_spec 32 (fun _ => 5) 8 6 (by decide) (by decide) (by decide)
  ⟨by decide, by decide, by decide, h.1, h.2.1, h.2.2.2.2.2.2.1⟩

/-! ## Safe free -/

theorem safefree_eq_free_and_null (h : Heap) (pp : Nat) :
    _bal_safefree h pp = free_and_null h pp := by
  unfold _bal_safefree free_and_null
  by_cases h1 : pp = NULL
  · simp [h1]
  · by_cases h2 : h.cells pp = NULL
    · simp [h1, h2]
    · simp [h1, h2, store_ptr, free]

theorem safefree_noop (h : Heap) (pp : Nat) (hn : pp = NULL ∨ h.cells pp = NULL) :
    _bal_safefree h pp = h := by
  unfold _bal_safefree
  rcases hn with h1 | h2
  · simp [h1]
  · simp [h2]

theorem safefree_cell (h : Heap) (pp : Nat) (h1 : pp ≠ NULL) :
    (_bal_safefree h pp).cells pp = NULL := by
  unfold _bal_safefree
  by_cases h2 : h.cells pp = NULL
  · simp [h1, h2]
  · simp [h1, h2, store_ptr, free]

/-- C10: `_bal_safefree` of balinternal.h and `__bal_safefree` of helpers.h
have the same effect on every heap and every `pp`, and it is that of the
free-and-null primitive: nothing happens when `pp` is null or `*pp` is null;
otherwise `free` is called once on the pointee, which is released, `*pp`
becomes `NULL` and nothing else changes. A second call on the same `pp` is a
no-op. -/
theorem safefree_uniform (h : Heap) (pp : Nat) :
    _bal_safefree h pp = __bal_safefree h pp ∧
    _bal_safefree h pp = free_and_null h pp ∧
    __bal_safefree h pp = free_and_null h pp ∧
    (pp = NULL ∨ h.cells pp = NULL → _bal_safefree h pp = h) ∧
    (pp ≠ NULL → h.cells pp ≠ NULL →
      (_bal_safefree h pp).cells pp = NULL ∧
      (_bal_safefree h pp).allocated (h.cells pp) = false ∧
      (_bal_safefree h pp).frees = h.frees ++ [h.cells pp] ∧
      (∀ q, q ≠ pp → (_bal_safefree h pp).cells q = h.cells q) ∧
      (∀ a, a ≠ h.cells pp → (_bal_safefree h pp).allocated a = h.allocated a)) ∧
    _bal_safefree (_bal_safefree h pp) pp = _bal_safefree h pp ∧
    __bal_safefree (__bal_safefree h pp) pp = __bal_safefree h pp := by
  have same : ∀ (g : Heap) (q : Nat), __bal_safefree g q = _bal_safefree g q :=
    fun _ _ => rfl
  have twice : _bal_safefree (_bal_safefree h pp) pp = _bal_safefree h pp := by
    by_cases h1 : pp = NULL
    · rw [safefree_noop h pp (Or.inl h1)]
      exact safefree_noop h pp (Or.inl h1)
    · exact safefree_noop _ pp (Or.inr (safefree_cell h pp h1))
  refine ⟨(same h pp).symm, safefree_eq_free_and_null h pp, ?_, safefree_noop h pp, ?_,
    twice, ?_⟩
  · rw [same]
    exact safefree_eq_free_and_null h pp
  · intro h1 h2
    refine ⟨safefree_cell h pp h1, ?_, ?_, ?_, ?_⟩
    · simp [_bal_safefree, h1, h2, store_ptr, free]
    · simp [_bal_safefree, h1, h2, store_ptr, free]
    · intro q hq
      simp [_bal_safefree, h1, h2, store_ptr, free, Function.update_noteq hq]
    · intro a ha
      simp [_bal_safefree, h1, h2, store_ptr, free, Function.update_noteq ha]
  · rw [same, same]
    exact twice

/-- The instance of C10 on a heap whose cell 16 holds the allocated block 64:
the block is released by one call to `free` and the cell becomes `NULL`. -/
theorem safefree_uniform_witness :
    (16 : Nat) ≠ NULL ∧ (64 : Nat) ≠ NULL ∧
    (_bal_safefree ⟨fun _ => 64, fun _ => true, []⟩ 16).cells 16 = NULL ∧
    (_bal_safefree ⟨fun _ => 64, fun _ => true, []⟩ 16).allocated 64 = false ∧
    (_bal_safefree ⟨fun _ => 64, fun _ => true, []⟩ 16).frees = [64] :=
  have h := (safefree_uniform ⟨fun _ => 64, fun _ => true, []⟩ 16).2.2.2.2.1
    (by decide) (by decide)
  ⟨by decide, by decide, h.1, h.2.1, h.2.2.1⟩

/-! ## Keyed list -/

theorem list_find_append_of_not_mem (lst : bal_list) (k : Int) (v : bal_selectdata)
    (hk : k ∉ lst.map Prod.fst) : _bal_list_find (lst ++ [(k, v)]) k = some v := by
  induction lst with
  | nil => simp [_bal_list_find]
  | cons node rest ih =>
    have hne : node.1 ≠ k := by
      intro h
      apply hk
      simp [h.symm]
    have hr : k ∉ rest.map Prod.fst := by
      intro h
      apply hk
      simp only [List.map_cons, List.mem_cons]
      exact Or.inr h
    show (if node.1 = k then some node.2 else _bal_list_find (rest ++ [(k, v)]) k) = some v
    rw [if_neg hne]
    exact ih hr

theorem list_find_append_of_ne (lst : bal_list) (k k' : Int) (v : bal_selectdata)
    (hne : k' ≠ k) : _bal_list_find (lst ++ [(k, v)]) k' = _bal_list_find lst k' := by
  induction lst with
  | nil => simp [_bal_list_find, Ne.symm hne]
  | cons node rest ih =>
    show (if node.1 = k' then some node.2 else _bal_list_find (rest ++ [(k, v)]) k')
      = if node.1 = k' then some node.2 else _bal_list_find rest k'
    rw [ih]

theorem list_find_of_mem (lst : bal_list) (hd : (lst.map Prod.fst).Nodup)
    (k : Int) (v : bal_selectdata) (hm : (k, v) ∈ lst) : _bal_list_find lst k = some v := by
  induction lst with
  | nil => simp at hm
  | cons node rest ih =>
    rw [List.map_cons, List.nodup_cons] at hd
    rcases List.mem_cons.mp hm with h | h
    · simp [_bal_list_find, ← h]
    · have hne : node.1 ≠ k := by
        intro e
        apply hd.1
        rw [e]
        exact List.mem_map_of_mem Prod.fst h
      simp only [_bal_list_find, if_neg hne]
      exact ih hd.2 h

/-- C11: for a keyed list with pairwise distinct keys and a key `k` that is not
in it, after a successful `_bal_list_add(lst, k, v)` the list is the old one
followed by the new node, which is its last node; `_bal_list_find(lst, k)`
yields `v`; every earlier entry is found with its old value, every other key
is looked up as before and the old nodes keep their order; the keys are still
pairwise distinct and `_bal_list_empty(lst)` is false. After
`_bal_list_remove_all(lst)` the list is empty and every find fails. An add
that fails leaves the list as it was. -/
theorem list_add_find (alloc : Bool) (lst : bal_list) (k : Int) (v : bal_selectdata)
    (hd : (lst.map Prod.fst).Nodup) (hk : k ∉ lst.map Prod.fst)
    (hs : (_bal_list_add alloc lst k v).1 = true) :
    (_bal_list_add alloc lst k v).2 = lst ++ [(k, v)] ∧
    (_bal_list_add alloc lst k v).2.getLast? = some (k, v) ∧
    _bal_list_find (_bal_list_add alloc lst k v).2 k = some v ∧
    (∀ k' v', (k', v') ∈ lst →
      _bal_list_find lst k' = some v' ∧
      _bal_list_find (_bal_list_add alloc lst k v).2 k' = some v') ∧
    (∀ k', k' ≠ k →
      _bal_list_find (_bal_list_add alloc lst k v).2 k' = _bal_list_find lst k') ∧
    lst <+: (_bal_list_add alloc lst k v).2 ∧
    ((_bal_list_add alloc lst k v).2.map Prod.fst).Nodup ∧
    _bal_list_empty (_bal_list_add alloc lst k v).2 = false ∧
    _bal_list_empty (_bal_list_remove_all (_bal_list_add alloc lst k v).2) = true ∧
    (∀ k', _bal_list_find (_bal_list_remove_all (_bal_list_add alloc lst k v).2) k' = none) ∧
    _bal_list_add false lst k v = (false, lst) := by
  have ha : alloc = true := by
    cases alloc
    · simp [_bal_list_add, _bal_list_create_node] at hs
    · rfl
  have hnew : (_bal_list_add alloc lst k v).2 = lst ++ [(k, v)] := by
    simp [_bal_list_add, _bal_list_create_node, ha]
  rw [hnew]
  refine ⟨rfl, by simp, list_find_append_of_not_mem lst k v hk, ?_, ?_, ?_, ?_, ?_, rfl,
    fun _ => rfl, rfl⟩
  · intro k' v' hm
    have hne : k' ≠ k := by
      intro e
      apply hk
      rw [← e]
      exact List.mem_map_of_mem Prod.fst hm
    have hf := list_find_of_mem lst hd k' v' hm
    exact ⟨hf, by rw [list_find_append_of_ne lst k k' v hne, hf]⟩
  · intro k' hne
    exact list_find_append_of_ne lst k k' v hne
  · exact List.prefix_append lst [(k, v)]
  · rw [List.map_append, List.nodup_append]
    refine ⟨hd, by simp, ?_⟩
    intro a ha1 ha2
    simp only [List.map_cons, List.map_nil, List.mem_singleton] at ha2
    exact hk (ha2 ▸ ha1)
  · simp [_bal_list_empty]

/-- The instance of C11 on the list with keys 3 and 5, adding key 7. -/
theorem list_add_find_witness :
    (_bal_list_add true [(3, ⟨3, 1, 0⟩), (5, ⟨5, 2, 0⟩)] 7 ⟨7, 4, 0⟩).2
      = [(3, ⟨3, 1, 0⟩), (5, ⟨5, 2, 0⟩), (7, ⟨7, 4, 0⟩)] ∧
    _bal_list_find (_bal_list_add true [(3, ⟨3, 1, 0⟩), (5, ⟨5, 2, 0⟩)] 7 ⟨7, 4, 0⟩).2 7
      = some ⟨7, 4, 0⟩ :=
  have h := list_add_find true [(3, ⟨3, 1, 0⟩), (5, ⟨5, 2, 0⟩)] 7 ⟨7, 4, 0⟩
    (by decide) (by decide) (by decide)
  ⟨h.1, h.2.2.1⟩

/-! ## Test runner -/

/-- C12: the expression `(code == ret == err.code)` of the test has, for all
integers `code`, `ret` and `c`, the value of `((code == ret) ? 1 : 0) == c`.
It is not the conjunctive equality `code == ret AND ret == c`: the two differ
at `2, 2, 2` and at `0, 5, 0`. When `code`, `ret` and `c` are equal, the
expression is true exactly when `c` is 1. -/
theorem error_check_left_assoc (code ret c : Int) :
    error_check code ret c = (if (if code = ret then (1 : Int) else 0) = c then 1 else 0) ∧
    (c_truth (error_check code ret c) = true ↔ (if code = ret then (1 : Int) else 0) = c) ∧
    (code = ret → ret = c → (c_truth (error_check code ret c) = true ↔ c = 1)) ∧
    (c_truth (error_check 2 2 2) = false ∧ conjunctive_check 2 2 2 = true) ∧
    (c_truth (error_check 0 5 0) = true ∧ conjunctive_check 0 5 0 = false) ∧
    ¬ (∀ x y z : Int, c_truth (error_check x y z) = conjunctive_check x y z) := by
  have hval : ∀ x y z : Int,
      (c_truth (error_check x y z) = true ↔ (if x = y then (1 : Int) else 0) = z) := by
    intro x y z
    unfold c_truth error_check c_eq
    by_cases h : (if x = y then (1 : Int) else 0) = z
    · simp [h]
    · simp [h]
  refine ⟨rfl, hval code ret c, ?_, by decide, by decide, ?_⟩
  · intro h1 _
    rw [hval, if_pos h1]
    exact eq_comm
  · intro h
    have := h 2 2 2
    revert this
    decide

theorem main_loop_step {σ : Type} (w : Nat) (tests : List (bal_test_data σ)) (total k : Nat)
    (st : MainState σ) (t : bal_test_data σ) (hlt : st.n < total)
    (ht : tests[st.n]? = some t) :
    main_loop w tests total (k + 1) st =
      main_loop w tests total k
        { n := (st.n + 1) % 2 ^ w,
          tests_run := (st.tests_run + 1) % 2 ^ w,
          tests_passed :=
            if (t.func st.world).1 then (st.tests_passed + 1) % 2 ^ w else st.tests_passed,
          world := (t.func st.world).2,
          out := st.out ++ [TestOutput.start_test total st.tests_run t.name]
            ++ [TestOutput.end_test total st.tests_run t.name (t.func st.world).1],
          calls := st.calls ++ [(st.n, (t.func st.world).1)] } := by
  simp [main_loop, hlt, ht]

theorem main_loop_exit {σ : Type} (w : Nat) (tests : List (bal_test_data σ)) (total k : Nat)
    (st : MainState σ) (h : ¬ st.n < total) : main_loop w tests total k st = st := by
  cases k <;> simp [main_loop, h]

theorem run_in_order_length {σ : Type} (ts : List (bal_test_data σ)) (world : σ) :
    (run_in_order ts world).length = ts.length := by
  induction ts generalizing world with
  | nil => rfl
  | cons t rest ih => simp [run_in_order, ih]

theorem main_loop_run {σ : Type} (w k : Nat) :
    ∀ (pre rest : List (bal_test_data σ)) (st : MainState σ),
      st.n = pre.length → st.tests_run = pre.length → st.tests_passed ≤ st.tests_run →
      (pre ++ rest).length < 2 ^ w →
      (main_loop w (pre ++ rest) (pre ++ rest).length k st).n
        = pre.length + min k rest.length ∧
      (main_loop w (pre ++ rest) (pre ++ rest).length k st).tests_run
        = pre.length + min k rest.length ∧
      (main_loop w (pre ++ rest) (pre ++ rest).length k st).tests_passed
        = st.tests_passed + (run_in_order (rest.take k) st.world).count true ∧
      (main_loop w (pre ++ rest) (pre ++ rest).length k st).calls
        = st.calls ++ (List.range' pre.length (min k rest.length)).zip
            (run_in_order (rest.take k) st.world) := by
  induction k with
  | zero =>
    intro pre rest st hn hr _ _
    simp [main_loop, run_in_order, hr, hn]
  | succ k ih =>
    intro pre rest st hn hr hp hlen
    cases rest with
    | nil =>
      have hex : ¬ st.n < (pre ++ ([] : List (bal_test_data σ))).length := by
        simp [hn]
      rw [main_loop_exit w _ _ _ st hex]
      simp [run_in_order, hn, hr]
    | cons t rest' =>
      have hlt : st.n < (pre ++ t :: rest').length := by
        simp [hn]
      have ht : (pre ++ t :: rest')[st.n]? = some t := by
        rw [hn, List.getElem?_append_right (Nat.le_refl _)]
        simp
      have hbound : pre.length + 1 < 2 ^ w := by
        have : (pre ++ t :: rest').length = pre.length + (rest'.length + 1) := by simp
        omega
      rw [main_loop_step w _ _ k st t hlt ht]
      have e : pre ++ t :: rest' = (pre ++ [t]) ++ rest' := by simp
      have hn' : (st.n + 1) % 2 ^ w = (pre ++ [t]).length := by
        rw [hn, Nat.mod_eq_of_lt hbound]
        simp
      have hr' : (st.tests_run + 1) % 2 ^ w = (pre ++ [t]).length := by
        rw [hr, Nat.mod_eq_of_lt hbound]
        simp
      have hpm : (st.tests_passed + 1) % 2 ^ w = st.tests_passed + 1 := by
        apply Nat.mod_eq_of_lt
        omega
      have hp' : (if (t.func st.world).1 then (st.tests_passed + 1) % 2 ^ w
          else st.tests_passed) ≤ (st.tests_run + 1) % 2 ^ w := by
        rw [hpm, hr, Nat.mod_eq_of_lt hbound]
        split <;> omega
      have hlen' : ((pre ++ [t]) ++ rest').length < 2 ^ w := by
        rw [← e]
        exact hlen
      have key := ih (pre ++ [t]) rest'
        { n := (st.n + 1) % 2 ^ w,
          tests_run := (st.tests_run + 1) % 2 ^ w,
          tests_passed :=
            if (t.func st.world).1 then (st.tests_passed + 1) % 2 ^ w else st.tests_passed,
          world := (t.func st.world).2,
          out := st.out ++ [TestOutput.start_test (pre ++ t :: rest').length st.tests_run t.name]
            ++ [TestOutput.end_test (pre ++ t :: rest').length st.tests_run t.name
              (t.func st.world).1],
          calls := st.calls ++ [(st.n, (t.func st.world).1)] } hn' hr' hp' hlen'
      rw [← e] at key
      obtain ⟨a, b, c, d⟩ := key
      have hmin : min (k + 1) (rest'.length + 1) = min k rest'.length + 1 := by
        omega
      refine ⟨?_, ?_, ?_, ?_⟩
      · rw [a]
        simp only [List.length_append, List.length_cons, List.length_nil]
        omega
      · rw [b]
        simp only [List.length_append, List.length_cons, List.length_nil]
        omega
      · rw [c, hpm]
        simp only [List.take_succ_cons, run_in_order, List.count_cons]
        cases (t.func st.world).1
        · simp
        · simp
          omega
      · rw [d]
        simp only [List.length_cons, hmin, List.take_succ_cons, run_in_order,
          List.length_append, List.length_nil, List.range'_succ, List.zip_cons_cons,
          List.append_assoc, List.singleton_append, Nat.zero_add, hn]

theorem main_loop_from_start {σ : Type} (w k : Nat) (bal_tests : List (bal_test_data σ))
    (world : σ) (hsize : bal_tests.length < 2 ^ w) :
    (main_loop w bal_tests bal_tests.length k (main_start bal_tests world)).n
      = min k bal_tests.length ∧
    (main_loop w bal_tests bal_tests.length k (main_start bal_tests world)).tests_run
      = min k bal_tests.length ∧
    (main_loop w bal_tests bal_tests.length k (main_start bal_tests world)).tests_passed
      = (run_in_order (bal_tests.take k) world).count true ∧
    (main_loop w bal_tests bal_tests.length k (main_start bal_tests world)).calls
      = (List.range (min k bal_tests.length)).zip (run_in_order (bal_tests.take k) world) := by
  have h := main_loop_run w k [] bal_tests (main_start bal_tests world) rfl rfl
    (Nat.le_refl _) (by simpa using hsize)
  simp only [List.nil_append, List.length_nil, Nat.zero_add, main_start] at h
  simp only [main_start, List.range_eq_range']
  simpa using h

/-- C13: on a table of tests whose size fits the counters, the loop of `main`
calls the test functions of the indices `0, 1, ..., size - 1` in this order,
once each, every one on the state the one before left; after any number of
iterations `tests_passed <= tests_run` and `n = tests_run`; at the end
`tests_run` is the size of the table; and the exit status is `EXIT_SUCCESS`
if and only if every test function returned true, `EXIT_FAILURE` if and only
if at least one returned false. -/
theorem main_runs_all_tests {σ : Type} (w : Nat) (bal_tests : List (bal_test_data σ))
    (world : σ) (hsize : bal_tests.length < 2 ^ w) :
    (main w bal_tests world).2.calls
      = (List.range bal_tests.length).zip (run_in_order bal_tests world) ∧
    (main w bal_tests world).2.calls.map Prod.fst = List.range bal_tests.length ∧
    (∀ k,
      (main_loop w bal_tests bal_tests.length k (main_start bal_tests world)).tests_passed
        ≤ (main_loop w bal_tests bal_tests.length k (main_start bal_tests world)).tests_run ∧
      (main_loop w bal_tests bal_tests.length k (main_start bal_tests world)).tests_run
        = min k bal_tests.length ∧
      (main_loop w bal_tests bal_tests.length k (main_start bal_tests world)).n
        = (main_loop w bal_tests bal_tests.length k (main_start bal_tests world)).tests_run) ∧
    (main w bal_tests world).2.tests_run = bal_tests.length ∧
    (main w bal_tests world).2.n = bal_tests.length ∧
    (main w bal_tests world).2.tests_passed = (run_in_order bal_tests world).count true ∧
    ((main w bal_tests world).1 = EXIT_SUCCESS ↔
      ∀ b ∈ run_in_order bal_tests world, b = true) ∧
    ((main w bal_tests world).1 = EXIT_FAILURE ↔
      ∃ b ∈ run_in_order bal_tests world, b = false) := by
  obtain ⟨hn, hr, hp, hc⟩ :=
    main_loop_from_start w bal_tests.length bal_tests world hsize
  simp only [Nat.min_self, List.take_length] at hn hr hp hc
  have hlen := run_in_order_length bal_tests world
  have hall : (run_in_order bal_tests world).count true = bal_tests.length ↔
      ∀ b ∈ run_in_order bal_tests world, b = true := by
    rw [← hlen, List.count_eq_length]
    constructor
    · intro h b hb
      exact (h b hb).symm
    · intro h b hb
      exact (h b hb).symm
  have hexit : (main w bal_tests world).1
      = if (run_in_order bal_tests world).count true = bal_tests.length then EXIT_SUCCESS
        else EXIT_FAILURE := by
    simp only [main, hp, hr]
  refine ⟨?_, ?_, ?_, ?_, ?_, ?_, ?_, ?_⟩
  · simpa [main] using hc
  · have : (main w bal_tests world).2.calls
        = (List.range bal_tests.length).zip (run_in_order bal_tests world) := by
      simpa [main] using hc
    rw [this]
    apply List.map_fst_zip
    rw [hlen, List.length_range]
  · intro k
    obtain ⟨kn, kr, kp, _⟩ := main_loop_from_start w k bal_tests world hsize
    refine ⟨?_, kr, by rw [kn, kr]⟩
    rw [kp, kr]
    calc (run_in_order (bal_tests.take k) world).count true
        ≤ (run_in_order (bal_tests.take k) world).length := List.count_le_length _ _
      _ = min k bal_tests.length := by rw [run_in_order_length, List.length_take]
  · simpa [main] using hr
  · simpa [main] using hn
  · simpa [main] using hp
  · rw [hexit, ← hall]
    by_cases h : (run_in_order bal_tests world).count true = bal_tests.length
    · simp [h]
    · simp [h, EXIT_SUCCESS, EXIT_FAILURE]
  · rw [hexit]
    have hne : (∃ b ∈ run_in_order bal_tests world, b = false) ↔
        ¬ (run_in_order bal_tests world).count true = bal_tests.length := by
      rw [hall]
      constructor
      · rintro ⟨b, hb, hf⟩ h
        have := h b hb
        rw [hf] at this
        exact Bool.noConfusion this
      · intro h
        by_contra hcon
        apply h
        intro b hb
        cases hbv : b
        · exact absurd ⟨b, hb, hbv⟩ hcon
        · rfl
    rw [hne]
    by_cases h : (run_in_order bal_tests world).count true = bal_tests.length
    · simp [h, EXIT_SUCCESS, EXIT_FAILURE]
    · simp [h]

/-- The instance of C13 on the sample table with 64-bit counters: both tests
are called, in order, and the exit status is `EXIT_FAILURE` since the second
returns false. -/
theorem main_runs_all_tests_witness :
    sample_tests.length < 2 ^ 64 ∧
    (main 64 sample_tests 0).2.calls = [(0, true), (1, false)] ∧
    (main 64 sample_tests 0).2.tests_run = 2 ∧
    (main 64 sample_tests 0).1 = EXIT_FAILURE :=
  have h := main_runs_all_tests 64 sample_tests 0 (by decide)
  ⟨by decide, h.1, h.2.2.2.1, h.2.2.2.2.2.2.2.2 ⟨false, by decide, rfl⟩⟩

end Bal
